import Mathlib

/-!
Shallow embedding of the TVDI computation module (`computeTVDI`: `handleInputs`,
`singleTVDI`, `collectionTVDI`) of the TVDIalgorithm repository.

Modelling choices for the external raster substrate (Google Earth Engine):
- A raster image is a finite list of pixels indexed by grid position; a pixel is
  `none` (masked/invalid) or `some v` with `v : ℚ` (sample values are exact
  rationals in the embedding).
- A region of interest decides, per grid position, whether the pixel takes part
  in region-restricted reductions; `clip` invalidates pixels outside it.
- Point-wise comparison operators (`gt`, `lt`, `gte`) produce 1/0 masks and
  preserve invalid pixels; `and` is the point-wise logical conjunction;
  `selfMask` invalidates zero-valued pixels; `updateMask` invalidates pixels
  whose mask pixel is invalid or zero; `mosaic` composites a list of partial
  images, later images taking priority at each position.
- Region-restricted reductions (`countDistinct`, `frequencyHistogram`, `mean`,
  `linearFit`) see exactly the valid pixels at in-region positions.  A reduction
  over zero valid pixels yields `none` (the substrate's null result).  The
  frequency histogram is the substrate's string-keyed dictionary: each distinct
  value is keyed by its decimal string rendering, and the entries are listed in
  the dictionary's natural key order, i.e. lexicographic over those strings
  (code-unit comparison, as `ee.Dictionary` orders its keys); each entry also
  carries the value itself, so the `ee.Number.parse` of a key is the identity
  here.  Keys are modelled as lists of character codes; rationals without a
  terminating decimal expansion are truncated at 40 fractional digits (doubles
  always render finitely).
- The expression `(LST - LSTmin) / (a + b*NDVI - LSTmin)` is evaluated
  point-wise; a pixel where any operand is invalid, any parameter is null, or
  the denominator is zero produces an invalid pixel (the substrate does not
  propagate infinities).
- The scale (m/px) argument only drives resampling in the substrate; in the
  embedding all images are already on the common grid, so reductions do not
  consume it.  `reproject`/`rename` are likewise the identity here.
- Debug printing is effect-only in the source and has no counterpart in the
  pure embedding.
-/

/-- A pixel: `none` is masked/invalid, `some v` holds the sample value. -/
abbrev Pixel : Type := Option ℚ

/-- A raster image: pixels listed by grid position. -/
abbrev Image : Type := List Pixel

/-- A region of interest: decides membership of each grid position. -/
abbrev Region : Type := Nat → Bool

/-- Point-wise `img.gt(c)`: 1 where the value exceeds `c`, 0 otherwise. -/
def imgGt (img : Image) (c : ℚ) : Image :=
  img.map (Option.map (fun v => if c < v then 1 else 0))

/-- Point-wise `img.lt(c)`: 1 where the value is below `c`, 0 otherwise. -/
def imgLt (img : Image) (c : ℚ) : Image :=
  img.map (Option.map (fun v => if v < c then 1 else 0))

/-- Point-wise `img.gte(c)`: 1 where the value is at least `c`, 0 otherwise. -/
def imgGte (img : Image) (c : ℚ) : Image :=
  img.map (Option.map (fun v => if c ≤ v then 1 else 0))

/-- Point-wise logical `and` of two images (1 iff both values are nonzero). -/
def imgAnd (a b : Image) : Image :=
  List.zipWith (fun p q =>
    match p, q with
    | some x, some y => some (if x ≠ 0 ∧ y ≠ 0 then (1 : ℚ) else 0)
    | _, _ => none) a b

/-- `img.selfMask()`: invalidates zero-valued pixels. -/
def selfMask (img : Image) : Image :=
  img.map (fun p => p.bind (fun v => if v = 0 then none else some v))

/-- `img.updateMask(mask)`: keeps a pixel only where the mask pixel is valid
and nonzero. -/
def updateMask (img mask : Image) : Image :=
  List.zipWith (fun p m =>
    match m with
    | some mv => if mv = 0 then none else p
    | none => none) img mask

/-- `img.clip(ROI)`: pixels outside the region become invalid. -/
def clipImg (img : Image) (roi : Region) : Image :=
  img.enum.map (fun p => if roi p.1 then p.2 else none)

/-- `img.clamp(lo, hi)`: clamps every valid value into `[lo, hi]`. -/
def clampImg (img : Image) (lo hi : ℚ) : Image :=
  img.map (Option.map (fun v => min (max v lo) hi))

/-- Pixel of `img` at position `i` (`none` beyond the image extent). -/
def getPixel (img : Image) (i : Nat) : Pixel :=
  (img[i]?).join

/-- Two-image mosaic step: the second (later) image takes priority. -/
def mosaicTwo (a b : Image) : Image :=
  (List.range (max a.length b.length)).map (fun i =>
    match getPixel b i with
    | some v => some v
    | none => getPixel a i)

/-- `ee.ImageCollection(...).mosaic()`: composite a list of partial images,
later entries taking priority at each position. -/
def mosaic (l : List Image) : Image :=
  l.foldl mosaicTwo []

/-- Values of the valid pixels of `img` at in-region positions (the samples a
region-restricted reducer sees). -/
def regionValues (img : Image) (roi : Region) : List ℚ :=
  img.enum.filterMap (fun p => if roi p.1 then p.2 else none)

/-- `ee.Reducer.countDistinct()` over the region: number of distinct values. -/
def countDistinct (img : Image) (roi : Region) : Nat :=
  (regionValues img roi).dedup.length

/-- Decimal digits (as character codes, most significant first) of a natural
number, by fuelled division. -/
def natDigitsAux : Nat → Nat → List Nat
  | 0, _ => []
  | fuel+1, n => if n = 0 then [] else natDigitsAux fuel (n / 10) ++ [48 + n % 10]

/-- Decimal rendering of a natural number as character codes. -/
def natDigits (n : Nat) : List Nat :=
  if n = 0 then [48] else natDigitsAux (n+1) n

/-- Fractional decimal digits of `rem/den` (character codes), up to `fuel`
digits. -/
def fracDigits : Nat → Nat → Nat → List Nat
  | 0, _, _ => []
  | fuel+1, rem, den =>
    if rem = 0 then [] else (48 + rem * 10 / den) :: fracDigits fuel (rem * 10 % den) den

/-- The dictionary key of a sample value: the character codes of its decimal
string rendering (sign, integer part, and fractional part when nonzero,
truncated at 40 digits). -/
def decimalKey (q : ℚ) : List Nat :=
  (if q < 0 then [45] else []) ++
  natDigits (q.num.natAbs / q.den) ++
  (if q.num.natAbs % q.den = 0 then []
   else 46 :: fracDigits 40 (q.num.natAbs % q.den) q.den)

/-- Lexicographic comparison of code lists (JS string comparison is by code
units). -/
def lexLeb : List Nat → List Nat → Bool
  | [], _ => true
  | _ :: _, [] => false
  | a :: as, b :: bs => if a < b then true else if b < a then false else lexLeb as bs

/-- The dictionary's natural key order: lexicographic over the decimal string
renderings of the values. -/
def keyLe (x y : ℚ) : Prop := lexLeb (decimalKey x) (decimalKey y) = true

instance : DecidableRel keyLe := fun _ _ => Bool.decEq _ _

/-- `ee.Reducer.frequencyHistogram()` over the region: the string-keyed
dictionary of distinct values with their pixel counts, entries in the
dictionary's natural key order (lexicographic over the decimal string
keys, `keyLe`). -/
def frequencyHistogram (img : Image) (roi : Region) : List (ℚ × Nat) :=
  let vs := regionValues img roi
  (List.insertionSort keyLe vs.dedup).map (fun v => (v, vs.count v))

/-- `ee.Reducer.mean()` over the region (`none` when no valid pixel). -/
def meanReduce (img : Image) (roi : Region) : Option ℚ :=
  let vs := regionValues img roi
  if vs.isEmpty then none else some (vs.sum / vs.length)

/-- Paired samples of a two-band raster over the region: positions where both
bands are valid (what a two-input reducer such as `linearFit` consumes). -/
def regionPairs (a b : Image) (roi : Region) : List (ℚ × ℚ) :=
  (List.zipWith (fun p q => (p, q)) a b).enum.filterMap (fun x =>
    if roi x.1 then
      match x.2 with
      | (some u, some v) => some (u, v)
      | _ => none
    else none)

/-- `ee.Reducer.linearFit()`: ordinary least squares of the dependent second
component on the independent first component, returning `(offset, scale)`.
With no samples, or a degenerate design (all abscissae equal), the reduction
has no defined result and yields `(none, none)`. -/
def linearFitReduce (pairs : List (ℚ × ℚ)) : Option ℚ × Option ℚ :=
  if pairs.isEmpty then (none, none)
  else
    let n : ℚ := pairs.length
    let sx := (pairs.map Prod.fst).sum
    let sy := (pairs.map Prod.snd).sum
    let sxy := (pairs.map (fun p => p.1 * p.2)).sum
    let sxx := (pairs.map (fun p => p.1 * p.1)).sum
    if n * sxx - sx * sx = 0 then (none, none)
    else
      let slope := (n * sxy - sx * sy) / (n * sxx - sx * sx)
      (some ((sy - slope * sx) / n), some slope)

/-- Mask of the NDVI interval `(i*0.01, (i+1)*0.01)` (both comparisons strict,
as in the source), self-masked. -/
def maskIntervalNDVI (imageNDVI : Image) (i : Nat) : Image :=
  let minNDVI : ℚ := (i : ℚ) * 0.01
  let maxNDVI : ℚ := ((i : ℚ) + 1) * 0.01
  selfMask (imgAnd (imgGt imageNDVI minNDVI) (imgLt imageNDVI maxNDVI))

/-- LST restricted to the pixels of NDVI interval `i`. -/
def LSTOnIntervalOf (imageNDVI imageLST : Image) (i : Nat) : Image :=
  updateMask imageLST (maskIntervalNDVI imageNDVI i)

/-- The per-interval LST fields that survive the distinct-count filter: the
map over `ee.List.sequence(0,99)` with `dropNulls`, keeping interval `i` only
when it has more than one distinct LST value in the region. -/
def LSTValuesOnNDVIIntervals (imageNDVI imageLST : Image) (roi : Region) :
    List Image :=
  (List.range 100).filterMap (fun i =>
    let LSTOnInterval := LSTOnIntervalOf imageNDVI imageLST i
    if 1 < countDistinct LSTOnInterval roi then some LSTOnInterval else none)

/-- Running partial sums, starting from `acc` (`ee.Array.accum(0)`). -/
def accumAux (acc : ℚ) : List ℚ → List ℚ
  | [] => []
  | x :: xs => (acc + x) :: accumAux (acc + x) xs

/-- Cumulative sums of a list (`accum` along axis 0). -/
def accumList (xs : List ℚ) : List ℚ :=
  accumAux 0 xs

/-- Cumulative histogram counts normalized by the last (total) count. -/
def normalizedAccum (h : List (ℚ × Nat)) : List ℚ :=
  let acc := accumList (h.map (fun p => ((p.2 : ℚ))))
  acc.map (fun x => x / (acc.getLast?.getD 0))

/-- The LST value at the first histogram position whose normalized cumulative
frequency reaches `th` (the source's `indexOf(1)` on the boolean `gte(th)`
list, then `ee.Number.parse` of the key there).  The `getD 0` default is
unreachable for a retained interval, whose histogram is nonempty. -/
def LSTValueGTE (img : Image) (roi : Region) (th : ℚ) : ℚ :=
  let hist := frequencyHistogram img roi
  let norm := normalizedAccum hist
  let idx := norm.findIdx (fun c => decide (th ≤ c))
  ((hist[idx]?).map Prod.fst).getD 0

/-- Wet-edge pixels of one interval: LST strictly below the 02-percent value. -/
def wetEdgePixels (LSTOnInterval : Image) (roi : Region) : Image :=
  selfMask (imgLt LSTOnInterval (LSTValueGTE LSTOnInterval roi 0.02))

/-- Dry-edge pixels of one interval: LST at or above the 98-percent value. -/
def dryEdgePixels (LSTOnInterval : Image) (roi : Region) : Image :=
  selfMask (imgGte LSTOnInterval (LSTValueGTE LSTOnInterval roi 0.98))

/-- Per retained interval, the pair (wet-edge mask, dry-edge mask). -/
def edgesPixelsMasks (imageNDVI imageLST : Image) (roi : Region) :
    List (Image × Image) :=
  (LSTValuesOnNDVIIntervals imageNDVI imageLST roi).map
    (fun LSTOnInterval => (wetEdgePixels LSTOnInterval roi,
                           dryEdgePixels LSTOnInterval roi))

/-- Scene-wide wet-edge mask: mosaic of all per-interval wet masks. -/
def wetEdgePixelsMask (imageNDVI imageLST : Image) (roi : Region) : Image :=
  mosaic ((edgesPixelsMasks imageNDVI imageLST roi).map Prod.fst)

/-- Scene-wide dry-edge mask: mosaic of all per-interval dry masks. -/
def dryEdgePixelsMask (imageNDVI imageLST : Image) (roi : Region) : Image :=
  mosaic ((edgesPixelsMasks imageNDVI imageLST roi).map Prod.snd)

/-- Linear fit of dry-edge LST on dry-edge NDVI: offset `a` (null when the
reduction has no defined result). -/
def dryEdgeOffset_a (imageNDVI imageLST : Image) (roi : Region) : Option ℚ :=
  (linearFitReduce (regionPairs
    (updateMask imageNDVI (dryEdgePixelsMask imageNDVI imageLST roi))
    (updateMask imageLST (dryEdgePixelsMask imageNDVI imageLST roi)) roi)).1

/-- Linear fit of dry-edge LST on dry-edge NDVI: slope `b`. -/
def dryEdgeSlope_b (imageNDVI imageLST : Image) (roi : Region) : Option ℚ :=
  (linearFitReduce (regionPairs
    (updateMask imageNDVI (dryEdgePixelsMask imageNDVI imageLST roi))
    (updateMask imageLST (dryEdgePixelsMask imageNDVI imageLST roi)) roi)).2

/-- Mean LST over the wet-edge pixels (null when the wet mask is empty). -/
def wetEdgeLSTMean (imageNDVI imageLST : Image) (roi : Region) : Option ℚ :=
  meanReduce (updateMask imageLST (wetEdgePixelsMask imageNDVI imageLST roi)) roi

/-- The per-pixel expression `(LST - LSTmin) / (a + b*NDVI - LSTmin)`.  A pixel
with any invalid operand, any null parameter, or a zero denominator is
invalid. -/
def tvdiExpression (imageLST imageNDVI : Image) (a b LSTmin : Option ℚ) :
    Image :=
  List.zipWith (fun pl pn =>
    match pl, pn, a, b, LSTmin with
    | some l, some n, some av, some bv, some m =>
        if av + bv * n - m = 0 then none else some ((l - m) / (av + bv * n - m))
    | _, _, _, _, _ => none) imageLST imageNDVI

/-- The computation of `singleTVDI` after input validation: edge extraction,
fitting, per-pixel expression, then `.clip(ROI).clamp(0,1)`. -/
def singleTVDIcore (imageNDVI imageLST : Image) (roi : Region) : Image :=
  clampImg (clipImg (tvdiExpression imageLST imageNDVI
    (dryEdgeOffset_a imageNDVI imageLST roi)
    (dryEdgeSlope_b imageNDVI imageLST roi)
    (wetEdgeLSTMean imageNDVI imageLST roi)) roi) 0 1

/-- `handleInputs`: accumulates one message per null input into `error`; for
collections of different sizes the message is assigned (overwriting any
accumulated messages).  Returns the error string, or `none` for no error
(the source's `false`). -/
def handleInputs {A : Type} (NDVI LST : Option A) (ROIgeometry : Option Region)
    (SCALE_M_PX : Option ℚ) (isCollection : Bool) (size : A → Nat) :
    Option String :=
  let error := ""
  let error := match NDVI with
    | none => error ++ (if isCollection then "ERROR: imageCollectionNDVI must not be null!\n"
                        else "ERROR: imageNDVI must not be null!\n")
    | some _ => error
  let error := match LST with
    | none => error ++ (if isCollection then "ERROR: imageCollectionLST must not be null!\n"
                        else "ERROR: imageLST must not be null!\n")
    | some _ => error
  let error := match ROIgeometry with
    | none => error ++ "ERROR: ROI must not be null!\n"
    | some _ => error
  let error := match SCALE_M_PX with
    | none => error ++ "ERROR: SCALE_M_PX must not be null!\n"
    | some _ => error
  let error := match isCollection, NDVI, LST with
    | true, some n, some l =>
        if size n ≠ size l
        then "ERROR: NDVI and LST collections don\x27t have the same size!"
        else error
    | _, _, _ => error
  if error = "" then none else some error

/-- `singleTVDI`: validate inputs, then run the pipeline.  An `.error` result
is the returned error string of the source; `.ok` carries the TVDI image.  The
final catch-all branch is unreachable: `handleInputs` reports every null
input.  `DEBUG_FLAG` only drives printing in the source, which has no effect
in the pure embedding. -/
def singleTVDI (imageNDVI imageLST : Option Image) (ROIgeometry : Option Region)
    (SCALE_M_PX : Option ℚ) (DEBUG_FLAG : Bool) : Except String Image :=
  match handleInputs imageNDVI imageLST ROIgeometry SCALE_M_PX false
      (fun img => img.length) with
  | some error => .error error
  | none =>
    match imageNDVI, imageLST, ROIgeometry, SCALE_M_PX with
    | some ndvi, some lst, some roi, some _ => .ok (singleTVDIcore ndvi lst roi)
    | _, _, _, _ => .error ""

/-- `collectionTVDI`: validate inputs, then apply `singleTVDI` (debug disabled)
to each index of the paired lists, tagging each result with its index
(`system:index`).  Both catch-all branches are unreachable after validation. -/
def collectionTVDI (imageCollectionNDVI imageCollectionLST : Option (List Image))
    (ROIgeometry : Option Region) (SCALE_M_PX : Option ℚ) :
    Except String (List (Image × Nat)) :=
  match handleInputs imageCollectionNDVI imageCollectionLST ROIgeometry
      SCALE_M_PX true List.length with
  | some error => .error error
  | none =>
    match imageCollectionNDVI, imageCollectionLST, ROIgeometry, SCALE_M_PX with
    | some IClistNDVI, some IClistLST, some roi, some s =>
        .ok ((List.range IClistNDVI.length).map (fun i =>
          match singleTVDI IClistNDVI[i]? IClistLST[i]? (some roi) (some s)
              false with
          | .ok TVDI => (TVDI, i)
          | .error _ => ([], i)))
    | _, _, _, _ => .error ""

/-- Decidable equality for `Except`, used to evaluate results on concrete
inputs. -/
instance {ε α : Type} [DecidableEq ε] [DecidableEq α] :
    DecidableEq (Except ε α)
  | .error e, .error f =>
      if h : e = f then isTrue (by rw [h])
      else isFalse (fun c => h (by injection c))
  | .error _, .ok _ => isFalse (fun c => Except.noConfusion c)
  | .ok _, .error _ => isFalse (fun c => Except.noConfusion c)
  | .ok x, .ok y =>
      if h : x = y then isTrue (by rw [h])
      else isFalse (fun c => h (by injection c))

set_option maxRecDepth 100000

/-! Concrete scenes used to evaluate the pipeline on explicit inputs. -/

/-- A region containing every grid position. -/
def fullROI : Region := fun _ => true

/-- NDVI of a 3-pixel scene whose LST is constant. -/
def ndviFlat : Image := [some 0.505, some 0.505, some 0.505]

/-- Constant LST of the 3-pixel scene: every NDVI interval has at most one
distinct LST value, so every interval is dropped and both global edge masks
are empty. -/
def lstFlat : Image := [some 300, some 300, some 300]

/-- NDVI of a 51-pixel scene with one retained interval, nonempty wet and dry
edges and a non-degenerate dry-edge fit. -/
def ndviA : Image := some 0.502 :: some 0.502 :: List.replicate 49 (some 0.508)

/-- LST of the 51-pixel scene: one cold pixel (290) below the 02-percent
value, fifty pixels at 300. -/
def lstA : Image := some 290 :: List.replicate 50 (some 300)

/-- NDVI of a 52-pixel scene whose last pixel (NDVI 371/750) makes the fitted
denominator `a + b*NDVI - LSTmin` vanish. -/
def ndviB : Image :=
  List.replicate 50 (some 0.502) ++ [some 0.508, some (371/750)]

/-- LST of the 52-pixel scene: one wet pixel (290), 48 pixels at 300, dry
pixels at 301 and 310, and a final pixel (305) in its own discarded
interval. -/
def lstB : Image :=
  some 290 :: (List.replicate 48 (some 300) ++ [some 301, some 310, some 305])

/-- One-pixel NDVI used for the collection example. -/
def ndviS : Image := [some 0.505]

/-- One-pixel LST used for the collection example. -/
def lstS : Image := [some 300]

/-- Three-pixel LST field with two distinct values, used to evaluate the
percentile selection. -/
def lstW : Image := [some 1, some 2, some 2]

/-- Three-pixel LST field whose distinct values 10.2 and 9.5 sort
lexicographically ("10.2" before "9.5") in the opposite of numeric order. -/
def lstLex : Image := [some 10.2, some 9.5, some 9.5]

/-- The normalized cumulative frequency at value `w`: the fraction of
region-restricted samples with value at most `w`. -/
def cumulativeFractionLE (img : Image) (roi : Region) (w : ℚ) : ℚ :=
  ((regionValues img roi).countP (fun x => decide (x ≤ w)) : ℚ) /
    ((regionValues img roi).length : ℚ)

/-- C7: for every input, the TVDI image returned by `singleTVDI` with the
diagnostic-verbosity flag enabled is identical to the one returned with the
flag disabled: the flag only drives debug printing and has no effect on the
returned value. -/
theorem singleTVDI_debug_flag_no_effect
    (imageNDVI imageLST : Option Image) (ROIgeometry : Option Region)
    (SCALE_M_PX : Option ℚ) (d e : Bool) :
    singleTVDI imageNDVI imageLST ROIgeometry SCALE_M_PX d =
      singleTVDI imageNDVI imageLST ROIgeometry SCALE_M_PX e := rfl

/-- C1: on a scene with constant LST every interval is dropped, both
aggregated edge masks are empty and every fitted parameter is the null
reduction result - yet `singleTVDI` does not report an insufficient-data
failure: it returns a TVDI image (fully masked) built from the null
parameters. -/
theorem empty_edges_silently_accepted :
    wetEdgePixelsMask ndviFlat lstFlat fullROI = [] ∧
    dryEdgePixelsMask ndviFlat lstFlat fullROI = [] ∧
    dryEdgeOffset_a ndviFlat lstFlat fullROI = none ∧
    dryEdgeSlope_b ndviFlat lstFlat fullROI = none ∧
    wetEdgeLSTMean ndviFlat lstFlat fullROI = none ∧
    singleTVDI (some ndviFlat) (some lstFlat) (some fullROI) (some 1000) false =
      .ok [none, none, none] := by
  refine ⟨?_, ?_, ?_, ?_, ?_, ?_⟩ <;> with_unfolding_all decide

/-- The filter pattern of the interval map: mapping `g` and keeping the image
exactly when it satisfies `p`. -/
theorem filterMap_if_eq_filter {α β : Type} (g : α → β) (p : β → Prop)
    [DecidablePred p] (l : List α) :
    (l.filterMap fun a => if p (g a) then some (g a) else none) =
      (l.map g).filter (fun b => decide (p b)) := by
  induction l with
  | nil => rfl
  | cons a t ih =>
    by_cases h : p (g a) <;>
      simp [List.filterMap_cons, List.filter_cons, h, ih]

/-- C9: the retained interval LST fields are exactly the 100 candidate
interval fields filtered by "more than one distinct LST value in the region"
(an interval with at most one distinct value is silently discarded), and the
retained collection has length at most 100. -/
theorem intervals_retained_iff_distinct_gt_one (imageNDVI imageLST : Image)
    (roi : Region) :
    LSTValuesOnNDVIIntervals imageNDVI imageLST roi =
      ((List.range 100).map (LSTOnIntervalOf imageNDVI imageLST)).filter
        (fun f => decide (1 < countDistinct f roi)) ∧
    (LSTValuesOnNDVIIntervals imageNDVI imageLST roi).length ≤ 100 := by
  have he : LSTValuesOnNDVIIntervals imageNDVI imageLST roi =
      ((List.range 100).map (LSTOnIntervalOf imageNDVI imageLST)).filter
        (fun f => decide (1 < countDistinct f roi)) :=
    filterMap_if_eq_filter (LSTOnIntervalOf imageNDVI imageLST)
      (fun f => 1 < countDistinct f roi) (List.range 100)
  refine ⟨he, ?_⟩
  rw [he]
  calc (((List.range 100).map (LSTOnIntervalOf imageNDVI imageLST)).filter
          (fun f => decide (1 < countDistinct f roi))).length
      ≤ ((List.range 100).map (LSTOnIntervalOf imageNDVI imageLST)).length :=
        List.length_filter_le _ _
    _ = 100 := by simp

/-- C10: when both collections are present but their sizes differ,
`handleInputs` returns exactly the size-mismatch message, discarding any
messages already accumulated for a null ROI or scale. -/
theorem size_mismatch_overwrites (ns ls : List Image) (roi : Option Region)
    (s : Option ℚ) (h : ns.length ≠ ls.length) :
    handleInputs (some ns) (some ls) roi s true List.length =
      some "ERROR: NDVI and LST collections don\x27t have the same size!" := by
  cases roi <;> cases s <;> simp [handleInputs, h]

/-- Witness for C10: collections of sizes 1 and 2 with ROI and scale both
null: the caller sees only the size-mismatch message. -/
theorem size_mismatch_overwrites_witness :
    handleInputs (some [ndviS]) (some [lstS, lstS]) (none : Option Region)
        (none : Option ℚ) true List.length =
      some "ERROR: NDVI and LST collections don\x27t have the same size!" :=
  size_mismatch_overwrites [ndviS] [lstS, lstS] none none (by decide)

/-- C5: a null NDVI, LST, ROI, or scale makes either entry point return a
descriptive (nonempty) error value before any computation, and for the
sequence entry point unequal collection lengths (e.g. 3 and 4) are likewise a
reported error with no TVDI output. -/
theorem null_or_mismatched_inputs_rejected :
    (∀ (imageNDVI imageLST : Option Image) (roi : Option Region)
        (s : Option ℚ) (d : Bool),
      imageNDVI = none ∨ imageLST = none ∨ roi = none ∨ s = none →
      ∃ e, singleTVDI imageNDVI imageLST roi s d = .error e ∧ e ≠ "") ∧
    (∀ (cNDVI cLST : Option (List Image)) (roi : Option Region) (s : Option ℚ),
      cNDVI = none ∨ cLST = none ∨ roi = none ∨ s = none →
      ∃ e, collectionTVDI cNDVI cLST roi s = .error e ∧ e ≠ "") ∧
    (∀ (ns ls : List Image) (roi : Option Region) (s : Option ℚ),
      ns.length = 3 → ls.length = 4 →
      ∃ e, collectionTVDI (some ns) (some ls) roi s = .error e ∧ e ≠ "") := by
  refine ⟨?_, ?_, ?_⟩
  · intro ndvi lst roi s d h
    rcases ndvi with _ | a <;> rcases lst with _ | b <;>
      rcases roi with _ | r <;> rcases s with _ | sc
    · exact ⟨"ERROR: imageNDVI must not be null!\nERROR: imageLST must not be null!\nERROR: ROI must not be null!\nERROR: SCALE_M_PX must not be null!\n", rfl, by decide⟩
    · exact ⟨"ERROR: imageNDVI must not be null!\nERROR: imageLST must not be null!\nERROR: ROI must not be null!\n", rfl, by decide⟩
    · exact ⟨"ERROR: imageNDVI must not be null!\nERROR: imageLST must not be null!\nERROR: SCALE_M_PX must not be null!\n", rfl, by decide⟩
    · exact ⟨"ERROR: imageNDVI must not be null!\nERROR: imageLST must not be null!\n", rfl, by decide⟩
    · exact ⟨"ERROR: imageNDVI must not be null!\nERROR: ROI must not be null!\nERROR: SCALE_M_PX must not be null!\n", rfl, by decide⟩
    · exact ⟨"ERROR: imageNDVI must not be null!\nERROR: ROI must not be null!\n", rfl, by decide⟩
    · exact ⟨"ERROR: imageNDVI must not be null!\nERROR: SCALE_M_PX must not be null!\n", rfl, by decide⟩
    · exact ⟨"ERROR: imageNDVI must not be null!\n", rfl, by decide⟩
    · exact ⟨"ERROR: imageLST must not be null!\nERROR: ROI must not be null!\nERROR: SCALE_M_PX must not be null!\n", rfl, by decide⟩
    · exact ⟨"ERROR: imageLST must not be null!\nERROR: ROI must not be null!\n", rfl, by decide⟩
    · exact ⟨"ERROR: imageLST must not be null!\nERROR: SCALE_M_PX must not be null!\n", rfl, by decide⟩
    · exact ⟨"ERROR: imageLST must not be null!\n", rfl, by decide⟩
    · exact ⟨"ERROR: ROI must not be null!\nERROR: SCALE_M_PX must not be null!\n", rfl, by decide⟩
    · exact ⟨"ERROR: ROI must not be null!\n", rfl, by decide⟩
    · exact ⟨"ERROR: SCALE_M_PX must not be null!\n", rfl, by decide⟩
    · simp at h
  · intro cndvi clst roi s h
    rcases cndvi with _ | a <;> rcases clst with _ | b <;>
      rcases roi with _ | r <;> rcases s with _ | sc
    · exact ⟨"ERROR: imageCollectionNDVI must not be null!\nERROR: imageCollectionLST must not be null!\nERROR: ROI must not be null!\nERROR: SCALE_M_PX must not be null!\n", rfl, by decide⟩
    · exact ⟨"ERROR: imageCollectionNDVI must not be null!\nERROR: imageCollectionLST must not be null!\nERROR: ROI must not be null!\n", rfl, by decide⟩
    · exact ⟨"ERROR: imageCollectionNDVI must not be null!\nERROR: imageCollectionLST must not be null!\nERROR: SCALE_M_PX must not be null!\n", rfl, by decide⟩
    · exact ⟨"ERROR: imageCollectionNDVI must not be null!\nERROR: imageCollectionLST must not be null!\n", rfl, by decide⟩
    · exact ⟨"ERROR: imageCollectionNDVI must not be null!\nERROR: ROI must not be null!\nERROR: SCALE_M_PX must not be null!\n", rfl, by decide⟩
    · exact ⟨"ERROR: imageCollectionNDVI must not be null!\nERROR: ROI must not be null!\n", rfl, by decide⟩
    · exact ⟨"ERROR: imageCollectionNDVI must not be null!\nERROR: SCALE_M_PX must not be null!\n", rfl, by decide⟩
    · exact ⟨"ERROR: imageCollectionNDVI must not be null!\n", rfl, by decide⟩
    · exact ⟨"ERROR: imageCollectionLST must not be null!\nERROR: ROI must not be null!\nERROR: SCALE_M_PX must not be null!\n", rfl, by decide⟩
    · exact ⟨"ERROR: imageCollectionLST must not be null!\nERROR: ROI must not be null!\n", rfl, by decide⟩
    · exact ⟨"ERROR: imageCollectionLST must not be null!\nERROR: SCALE_M_PX must not be null!\n", rfl, by decide⟩
    · exact ⟨"ERROR: imageCollectionLST must not be null!\n", rfl, by decide⟩
    · by_cases hsz : List.length a = List.length b
      · refine ⟨"ERROR: ROI must not be null!\nERROR: SCALE_M_PX must not be null!\n", ?_, by decide⟩
        simp [collectionTVDI, handleInputs, hsz]
      · refine ⟨"ERROR: NDVI and LST collections don\x27t have the same size!", ?_, by decide⟩
        simp [collectionTVDI, handleInputs, hsz]
    · by_cases hsz : List.length a = List.length b
      · refine ⟨"ERROR: ROI must not be null!\n", ?_, by decide⟩
        simp [collectionTVDI, handleInputs, hsz]
      · refine ⟨"ERROR: NDVI and LST collections don\x27t have the same size!", ?_, by decide⟩
        simp [collectionTVDI, handleInputs, hsz]
    · by_cases hsz : List.length a = List.length b
      · refine ⟨"ERROR: SCALE_M_PX must not be null!\n", ?_, by decide⟩
        simp [collectionTVDI, handleInputs, hsz]
      · refine ⟨"ERROR: NDVI and LST collections don\x27t have the same size!", ?_, by decide⟩
        simp [collectionTVDI, handleInputs, hsz]
    · simp at h
  · intro ns ls roi s h3 h4
    have hsz : List.length ns ≠ List.length ls := by rw [h3, h4]; decide
    rcases roi with _ | r <;> rcases s with _ | sc <;>
      refine ⟨"ERROR: NDVI and LST collections don\x27t have the same size!", ?_, by decide⟩ <;>
      simp [collectionTVDI, handleInputs, hsz]

/-- Witness for C5: a null single-image NDVI, a null collection LST, and
paired collections of sizes 3 and 4 are each rejected with a nonempty error. -/
theorem null_or_mismatched_inputs_rejected_witness :
    (∃ e, singleTVDI none (some lstS) (some fullROI) (some 1000) false =
      .error e ∧ e ≠ "") ∧
    (∃ e, collectionTVDI (some [ndviS]) none (some fullROI) (some 1000) =
      .error e ∧ e ≠ "") ∧
    (∃ e, collectionTVDI (some [ndviS, ndviS, ndviS])
      (some [lstS, lstS, lstS, lstS]) (some fullROI) (some 1000) =
      .error e ∧ e ≠ "") :=
  ⟨null_or_mismatched_inputs_rejected.1 none (some lstS) (some fullROI)
      (some 1000) false (Or.inl rfl),
   null_or_mismatched_inputs_rejected.2.1 (some [ndviS]) none (some fullROI)
      (some 1000) (Or.inr (Or.inl rfl)),
   null_or_mismatched_inputs_rejected.2.2 [ndviS, ndviS, ndviS]
      [lstS, lstS, lstS, lstS] (some fullROI) (some 1000) (by decide) (by decide)⟩

/-- A self-masked 1/0 indicator image holds a valid pixel exactly where the
underlying pixel is valid and satisfies the predicate. -/
theorem selfMask_indicator (P : ℚ → Prop) [DecidablePred P] (f : Image)
    (i : Nat) :
    (∃ w, (selfMask (f.map (Option.map (fun v => if P v then (1 : ℚ) else 0))))[i]? =
        some (some w)) ↔
    (∃ v, f[i]? = some (some v) ∧ P v) := by
  simp only [selfMask, List.map_map, List.getElem?_map, Function.comp]
  rcases hf : f[i]? with _ | p
  · simp
  · rcases p with _ | v
    · simp [Option.bind]
    · by_cases hP : P v <;> simp [Option.bind, hP]

/-- C8: for an interval LST field, the wet-edge mask contains exactly the
pixels with LST strictly below the 02-percent value, and the dry-edge mask
contains exactly the pixels with LST at or above the 98-percent value (the
asymmetric strict / non-strict comparisons of the source). -/
theorem edge_masks_exact_thresholds (LSTOnInterval : Image) (roi : Region)
    (i : Nat) :
    ((∃ w, (wetEdgePixels LSTOnInterval roi)[i]? = some (some w)) ↔
      (∃ v, LSTOnInterval[i]? = some (some v) ∧
        v < LSTValueGTE LSTOnInterval roi 0.02)) ∧
    ((∃ w, (dryEdgePixels LSTOnInterval roi)[i]? = some (some w)) ↔
      (∃ v, LSTOnInterval[i]? = some (some v) ∧
        LSTValueGTE LSTOnInterval roi 0.98 ≤ v)) := by
  constructor
  · simpa only [wetEdgePixels, imgLt] using
      selfMask_indicator (fun v => v < LSTValueGTE LSTOnInterval roi 0.02)
        LSTOnInterval i
  · simpa only [dryEdgePixels, imgGte] using
      selfMask_indicator (fun v => LSTValueGTE LSTOnInterval roi 0.98 ≤ v)
        LSTOnInterval i

/-- On all-valid inputs `singleTVDI` validates successfully and returns the
pipeline result. -/
theorem singleTVDI_ok (imageNDVI imageLST : Image) (roi : Region) (s : ℚ)
    (d : Bool) :
    singleTVDI (some imageNDVI) (some imageLST) (some roi) (some s) d =
      .ok (singleTVDIcore imageNDVI imageLST roi) := rfl

/-- C3: every pixel of a TVDI image returned by `singleTVDI` is either
invalid/absent or carries a value in the closed interval [0,1], and any valid
pixel lies inside the region of interest (the output is clipped to the ROI
and then clamped to [0,1]). -/
theorem tvdi_output_in_unit_interval (imageNDVI imageLST : Image)
    (roi : Region) (s : ℚ) (d : Bool) (img : Image)
    (hok : singleTVDI (some imageNDVI) (some imageLST) (some roi) (some s) d =
      .ok img)
    (i : Nat) (v : ℚ) (hv : img[i]? = some (some v)) :
    0 ≤ v ∧ v ≤ 1 ∧ roi i = true := by
  rw [singleTVDI_ok] at hok
  have himg : img = singleTVDIcore imageNDVI imageLST roi := by
    injection hok.symm
  subst himg
  rcases hx : (tvdiExpression imageLST imageNDVI
      (dryEdgeOffset_a imageNDVI imageLST roi)
      (dryEdgeSlope_b imageNDVI imageLST roi)
      (wetEdgeLSTMean imageNDVI imageLST roi))[i]? with _ | p
  · simp [singleTVDIcore, clampImg, clipImg, hx] at hv
  · rcases hroi : roi i with _ | _
    · simp [singleTVDIcore, clampImg, clipImg, hx, hroi] at hv
    · rcases p with _ | w
      · simp [singleTVDIcore, clampImg, clipImg, hx, hroi] at hv
      · simp [singleTVDIcore, clampImg, clipImg, hx, hroi] at hv
        subst hv
        refine ⟨le_min (le_max_right w 0) zero_le_one, min_le_right _ _, rfl⟩

/-- Evaluation of `singleTVDI` on the 51-pixel scene. -/
theorem sceneA_result :
    singleTVDI (some ndviA) (some lstA) (some fullROI) (some 1000) false =
      .ok (some 0 :: List.replicate 50 (some 1)) := by
  with_unfolding_all decide

/-- Witness for C3: on the 51-pixel scene the returned TVDI image is
`[some 0, some 1, ...]`; its pixel 0 carries value 0, which lies in [0,1]
inside the region. -/
theorem tvdi_output_in_unit_interval_witness :
    (0 : ℚ) ≤ 0 ∧ (0 : ℚ) ≤ 1 ∧ fullROI 0 = true :=
  tvdi_output_in_unit_interval ndviA lstA fullROI 1000 false
    (some 0 :: List.replicate 50 (some 1))
    sceneA_result 0 0 (by decide)

/-- C6: a pixel at which the fitted denominator `a + b*NDVI - LSTmin`
vanishes is invalid/absent in the returned TVDI image: the evaluation does
not fail and no infinite/undefined value is propagated. -/
theorem tvdi_zero_denominator_masked (imageNDVI imageLST : Image)
    (roi : Region) (s : ℚ) (d : Bool) (img : Image)
    (hok : singleTVDI (some imageNDVI) (some imageLST) (some roi) (some s) d =
      .ok img)
    (i : Nat) (a b m lv nv : ℚ)
    (ha : dryEdgeOffset_a imageNDVI imageLST roi = some a)
    (hb : dryEdgeSlope_b imageNDVI imageLST roi = some b)
    (hm : wetEdgeLSTMean imageNDVI imageLST roi = some m)
    (hl : imageLST[i]? = some (some lv))
    (hn : imageNDVI[i]? = some (some nv))
    (hden : a + b * nv - m = 0) :
    img[i]? = some none := by
  rw [singleTVDI_ok] at hok
  have himg : img = singleTVDIcore imageNDVI imageLST roi := by
    injection hok.symm
  subst himg
  have hexp : (tvdiExpression imageLST imageNDVI
      (dryEdgeOffset_a imageNDVI imageLST roi)
      (dryEdgeSlope_b imageNDVI imageLST roi)
      (wetEdgeLSTMean imageNDVI imageLST roi))[i]? = some none := by
    simp [tvdiExpression, List.getElem?_zipWith, hl, hn, ha, hb, hm, hden]
  simp [singleTVDIcore, clampImg, clipImg, hexp]

/-- Evaluation of `singleTVDI` on the 52-pixel scene. -/
theorem sceneB_result :
    singleTVDI (some ndviB) (some lstB) (some fullROI) (some 1000) false =
      .ok (some 0 :: (List.replicate 48 (some (10/11)) ++
        [some 1, some 1, none])) := by
  with_unfolding_all decide

/-- Dry-edge offset fitted on the 52-pixel scene. -/
theorem sceneB_offset : dryEdgeOffset_a ndviB lstB fullROI = some (-452) := by
  with_unfolding_all decide

/-- Dry-edge slope fitted on the 52-pixel scene. -/
theorem sceneB_slope : dryEdgeSlope_b ndviB lstB fullROI = some 1500 := by
  with_unfolding_all decide

/-- Wet-edge mean LST on the 52-pixel scene. -/
theorem sceneB_mean : wetEdgeLSTMean ndviB lstB fullROI = some 290 := by
  with_unfolding_all decide

/-- Witness for C6: on the 52-pixel scene the fit gives `a = -452`,
`b = 1500`, `LSTmin = 290`, and pixel 51 (NDVI 371/750, LST 305) has
denominator zero; it is masked in the returned image. -/
theorem tvdi_zero_denominator_masked_witness :
    (some 0 :: (List.replicate 48 (some ((10 : ℚ)/11)) ++
      [some 1, some 1, none]))[51]? = some none :=
  tvdi_zero_denominator_masked ndviB lstB fullROI 1000 false
    (some 0 :: (List.replicate 48 (some (10/11)) ++ [some 1, some 1, none]))
    sceneB_result 51 (-452) 1500 290 305 (371/750)
    sceneB_offset sceneB_slope sceneB_mean
    (by with_unfolding_all decide) (by with_unfolding_all decide)
    (by with_unfolding_all decide)

/-- C4: for equal-length input sequences, `collectionTVDI` returns the
sequence whose element at position `i` is the `singleTVDI` result of the
`i`-th NDVI/LST pair with verbosity disabled, tagged with index `i`. -/
theorem collectionTVDI_maps_singleTVDI (ns ls : List Image) (roi : Region)
    (s : ℚ) (h : ns.length = ls.length) :
    ∃ out, collectionTVDI (some ns) (some ls) (some roi) (some s) = .ok out ∧
      out.length = ns.length ∧
      ∀ i, i < ns.length →
        ∃ img, singleTVDI ns[i]? ls[i]? (some roi) (some s) false = .ok img ∧
          out[i]? = some (img, i) := by
  have hval : handleInputs (some ns) (some ls) (some roi) (some s) true
      List.length = none := by
    simp [handleInputs, h]
  refine ⟨(List.range ns.length).map (fun i =>
      match singleTVDI ns[i]? ls[i]? (some roi) (some s) false with
      | .ok TVDI => (TVDI, i)
      | .error _ => ([], i)), ?_, by simp, ?_⟩
  · simp only [collectionTVDI, hval]
  · intro i hi
    have hi2 : i < ls.length := h ▸ hi
    have hns : ns[i]? = some ns[i] := List.getElem?_eq_getElem hi
    have hls : ls[i]? = some ls[i] := List.getElem?_eq_getElem hi2
    refine ⟨singleTVDIcore ns[i] ls[i] roi, ?_, ?_⟩
    · rw [hns, hls]
      exact singleTVDI_ok ns[i] ls[i] roi s false
    · simp [List.getElem?_range hi, hns, hls, singleTVDI_ok]

/-- Witness for C4: a sequence of 2 identical pairs produces 2 identical TVDI
images, each equal to the single-pair result, tagged 0 and 1. -/
theorem collectionTVDI_maps_singleTVDI_witness :
    (∃ out, collectionTVDI (some [ndviS, ndviS]) (some [lstS, lstS])
        (some fullROI) (some 1000) = .ok out ∧
      out.length = 2 ∧
      ∀ i, i < 2 →
        ∃ img, singleTVDI [ndviS, ndviS][i]? [lstS, lstS][i]? (some fullROI)
            (some 1000) false = .ok img ∧
          out[i]? = some (img, i)) ∧
    collectionTVDI (some [ndviS, ndviS]) (some [lstS, lstS]) (some fullROI)
        (some 1000) = .ok [([none], 0), ([none], 1)] ∧
    singleTVDI (some ndviS) (some lstS) (some fullROI) (some 1000) false =
      .ok [none] :=
  ⟨collectionTVDI_maps_singleTVDI [ndviS, ndviS] [lstS, lstS] fullROI 1000 rfl,
   by with_unfolding_all decide, by with_unfolding_all decide⟩

theorem accumAux_length (acc : ℚ) (xs : List ℚ) :
    (accumAux acc xs).length = xs.length := by
  induction xs generalizing acc with
  | nil => rfl
  | cons x t ih => simp [accumAux, ih]

theorem accumAux_getElem? (acc : ℚ) (xs : List ℚ) (j : Nat)
    (hj : j < xs.length) :
    (accumAux acc xs)[j]? = some (acc + (xs.take (j+1)).sum) := by
  induction xs generalizing acc j with
  | nil => simp at hj
  | cons x t ih =>
    cases j with
    | zero => simp [accumAux]
    | succ j =>
      have hj' : j < t.length := by simpa using hj
      simp [accumAux, ih (acc + x) j hj', add_assoc]

theorem accumAux_getLast? (acc : ℚ) (xs : List ℚ) (hne : xs ≠ []) :
    (accumAux acc xs).getLast? = some (acc + xs.sum) := by
  rw [List.getLast?_eq_getElem?, accumAux_length]
  have hlen : xs.length - 1 < xs.length := by
    cases xs
    · simp at hne
    · simp
  rw [accumAux_getElem? acc xs _ hlen]
  have h1 : xs.length - 1 + 1 = xs.length :=
    Nat.succ_pred_eq_of_pos (List.length_pos.2 hne)
  rw [h1, List.take_length]

theorem countP_le_split (l : List ℚ) (A B : ℚ) (hAB : A ≤ B) :
    l.countP (fun x => decide (x ≤ B)) =
      l.countP (fun x => decide (x ≤ A)) +
      l.countP (fun x => decide (A < x ∧ x ≤ B)) := by
  induction l with
  | nil => rfl
  | cons a t ih =>
    by_cases h1 : a ≤ A <;> by_cases h2 : a ≤ B <;>
      simp [List.countP_cons, ih, h1, h2, not_lt.2, h1]
    · omega
    · exact absurd (le_trans h1 hAB) h2
    · have h3 : A < a := not_le.1 h1
      simp [h3]
      omega

/-- Counting samples at most the j-th key equals the sum of the counts of the
first j+1 keys, for a strictly sorted key list covering the samples. -/
theorem countP_le_key_eq_sum (vs ks : List ℚ)
    (hsort : List.Sorted (· < ·) ks) (hmem : ∀ x, x ∈ ks ↔ x ∈ vs)
    (j : Nat) (hj : j < ks.length) :
    vs.countP (fun x => decide (x ≤ ks[j])) =
      ((ks.take (j+1)).map (fun v => vs.count v)).sum := by
  have hpw := List.pairwise_iff_getElem.mp hsort
  induction j with
  | zero =>
    have hc : vs.countP (fun x => decide (x ≤ ks[0])) =
        vs.countP (fun x => x == ks[0]) := by
      refine List.countP_congr ?_
      intro x hx
      simp only [decide_eq_true_eq, beq_iff_eq]
      constructor
      · intro hle
        rcases List.mem_iff_getElem.mp ((hmem x).mpr hx) with ⟨k, hk, hkx⟩
        rcases Nat.eq_zero_or_pos k with hk0 | hkpos
        · subst hk0
          exact hkx.symm
        · exact absurd (hkx ▸ hpw 0 k hj hk hkpos) (not_lt.2 hle)
      · intro hx0
        exact hx0.le
    rw [hc, ← List.count_eq_countP]
    have ht : ks.take 1 = [ks[0]] := by
      rw [List.take_succ, List.take_zero, List.getElem?_eq_getElem hj]
      rfl
    simp [ht]
  | succ j ihj =>
    have hj' : j < ks.length := Nat.lt_of_succ_lt hj
    have hlt : ks[j] < ks[j+1] := hpw j (j+1) hj' hj (Nat.lt_succ_self j)
    have hsplit := countP_le_split vs ks[j] ks[j+1] hlt.le
    have hbetween : vs.countP (fun x => decide (ks[j] < x ∧ x ≤ ks[j+1])) =
        vs.count ks[j+1] := by
      rw [List.count_eq_countP]
      refine List.countP_congr ?_
      intro x hx
      simp only [decide_eq_true_eq, beq_iff_eq]
      constructor
      · rintro ⟨hgt, hle⟩
        rcases List.mem_iff_getElem.mp ((hmem x).mpr hx) with ⟨k, hk, hkx⟩
        rcases Nat.lt_trichotomy k (j+1) with hkj | hkj | hkj
        · have hkje : k ≤ j := Nat.lt_succ_iff.mp hkj
          rcases Nat.lt_or_ge k j with hky | hky
          · exact absurd (hkx ▸ hpw k j hk hj' hky) (not_lt.2 hgt.le)
          · have hkj2 : k = j := Nat.le_antisymm hkje hky
            subst hkj2
            exact absurd (hkx ▸ hgt) (lt_irrefl _)
        · subst hkj
          exact hkx.symm
        · exact absurd (hkx ▸ hpw (j+1) k hj hk hkj) (not_lt.2 hle)
      · intro hx1
        exact ⟨hx1 ▸ hlt, hx1.le⟩
    have htake : ks.take (j+2) = ks.take (j+1) ++ [ks[j+1]] := by
      rw [List.take_succ, List.getElem?_eq_getElem hj]
      rfl
    rw [hsplit, ihj hj', hbetween, htake, List.map_append, List.sum_append]
    simp

theorem lexLeb_total : ∀ x y : List Nat, lexLeb x y = true ∨ lexLeb y x = true
  | [], _ => Or.inl rfl
  | _ :: _, [] => Or.inr rfl
  | a :: as, b :: bs => by
    rcases Nat.lt_trichotomy a b with h | h | h
    · left
      simp [lexLeb, h]
    · subst h
      rcases lexLeb_total as bs with ih | ih
      · left
        simp [lexLeb, ih]
      · right
        simp [lexLeb, ih]
    · right
      simp [lexLeb, h]

theorem lexLeb_trans : ∀ x y z : List Nat,
    lexLeb x y = true → lexLeb y z = true → lexLeb x z = true
  | [], _, _ => fun _ _ => rfl
  | _ :: _, [], _ => fun h _ => by simp [lexLeb] at h
  | _ :: _, _ :: _, [] => fun _ h => by simp [lexLeb] at h
  | a :: as, b :: bs, c :: cs => fun h1 h2 => by
    rcases Nat.lt_trichotomy a b with hab | hab | hab
    · rcases Nat.lt_trichotomy b c with hbc | hbc | hbc
      · simp [lexLeb, Nat.lt_trans hab hbc]
      · subst hbc
        simp [lexLeb, hab]
      · simp [lexLeb, hbc, Nat.lt_asymm hbc] at h2
    · subst hab
      rcases Nat.lt_trichotomy a c with hac | hac | hac
      · simp [lexLeb, hac]
      · subst hac
        simp only [lexLeb, lt_irrefl, if_false] at h1 h2 ⊢
        exact lexLeb_trans as bs cs h1 h2
      · simp [lexLeb, hac, Nat.lt_asymm hac] at h2
    · simp [lexLeb, hab, Nat.lt_asymm hab] at h1

theorem keyLe_total : ∀ x y : ℚ, keyLe x y ∨ keyLe y x := fun x y =>
  lexLeb_total (decimalKey x) (decimalKey y)

theorem keyLe_trans : ∀ x y z : ℚ, keyLe x y → keyLe y z → keyLe x z :=
  fun x y z => lexLeb_trans (decimalKey x) (decimalKey y) (decimalKey z)

theorem frequencyHistogram_keys (img : Image) (roi : Region) :
    (frequencyHistogram img roi).map Prod.fst =
      List.insertionSort keyLe (regionValues img roi).dedup := by
  simp [frequencyHistogram, List.map_map, Function.comp_def]

theorem keys_mem_iff (img : Image) (roi : Region) (x : ℚ) :
    x ∈ List.insertionSort keyLe (regionValues img roi).dedup ↔
      x ∈ regionValues img roi := by
  rw [(List.perm_insertionSort _ _).mem_iff, List.mem_dedup]

/-- When the dictionary's key order agrees with the numeric order on the
region's values, the histogram keys are strictly ascending numerically. -/
theorem keys_sorted_lt (img : Image) (roi : Region)
    (hagree : ∀ x ∈ regionValues img roi, ∀ y ∈ regionValues img roi,
      (keyLe x y ↔ x ≤ y)) :
    List.Sorted (· < ·)
      (List.insertionSort keyLe (regionValues img roi).dedup) := by
  have hn : (List.insertionSort keyLe (regionValues img roi).dedup).Nodup :=
    ((List.perm_insertionSort _ _).nodup_iff).2 (List.nodup_dedup _)
  have hs : List.Sorted keyLe
      (List.insertionSort keyLe (regionValues img roi).dedup) :=
    @List.sorted_insertionSort _ keyLe _ ⟨keyLe_total⟩ ⟨keyLe_trans⟩ _
  have hsle : List.Sorted (· ≤ ·)
      (List.insertionSort keyLe (regionValues img roi).dedup) := by
    refine List.Pairwise.imp_of_mem ?_ hs
    intro a b ha hb hab
    exact (hagree a ((keys_mem_iff img roi a).mp ha)
      b ((keys_mem_iff img roi b).mp hb)).mp hab
  exact hsle.lt_of_le hn

theorem LSTValueGTE_spec (f : Image) (roi : Region)
    (hret : 1 < countDistinct f roi)
    (hagree : ∀ x ∈ regionValues f roi, ∀ y ∈ regionValues f roi,
      (keyLe x y ↔ x ≤ y))
    (th : ℚ) (hth : th ≤ 1) :
    LSTValueGTE f roi th ∈ regionValues f roi ∧
    th ≤ cumulativeFractionLE f roi (LSTValueGTE f roi th) ∧
    ∀ w ∈ regionValues f roi,
      th ≤ cumulativeFractionLE f roi w → LSTValueGTE f roi th ≤ w := by
  have hsort := keys_sorted_lt f roi hagree
  have hpw := List.pairwise_iff_getElem.mp hsort
  have hhist : frequencyHistogram f roi =
      (List.insertionSort keyLe (regionValues f roi).dedup).map
        (fun v => (v, (regionValues f roi).count v)) := rfl
  -- lengths and nonemptiness
  have hlenks : (List.insertionSort keyLe (regionValues f roi).dedup).length
      = (regionValues f roi).dedup.length :=
    (List.perm_insertionSort _ _).length_eq
  have hkpos : 0 < (List.insertionSort keyLe (regionValues f roi).dedup).length := by
    rw [hlenks]
    exact lt_trans Nat.zero_lt_one hret
  have hdedne : (regionValues f roi).dedup ≠ [] :=
    List.ne_nil_of_length_pos (lt_trans Nat.zero_lt_one hret)
  have hvsne : regionValues f roi ≠ [] := by
    intro hc
    rw [hc] at hdedne
    exact hdedne List.dedup_nil
  have hT : 0 < (regionValues f roi).length := List.length_pos.2 hvsne
  have hTQ : ((regionValues f roi).length : ℚ) ≠ 0 := by
    exact_mod_cast Nat.pos_iff_ne_zero.mp hT
  -- counts of keys sum to the number of samples
  have hsum : ((List.insertionSort keyLe (regionValues f roi).dedup).map
      (fun v => (regionValues f roi).count v)).sum =
      (regionValues f roi).length := by
    have hperm := (List.perm_insertionSort keyLe (regionValues f roi).dedup).map
      (fun v => (regionValues f roi).count v)
    rw [hperm.sum_eq]
    exact List.sum_map_count_dedup_eq_length _
  -- counts as rationals
  have hcnts : (frequencyHistogram f roi).map (fun p => ((p.2 : ℚ))) =
      (List.insertionSort keyLe (regionValues f roi).dedup).map
        (fun v => (((regionValues f roi).count v : ℚ))) := by
    rw [hhist, List.map_map]
    rfl
  have hmemiff : ∀ x, x ∈ List.insertionSort keyLe (regionValues f roi).dedup ↔
      x ∈ regionValues f roi := keys_mem_iff f roi
  have hsumcast : ∀ ksub : List ℚ,
      ((ksub.map (fun v => (((regionValues f roi).count v : ℚ)))).sum) =
        (((ksub.map (fun v => (regionValues f roi).count v)).sum : ℕ) : ℚ) := by
    intro ksub
    induction ksub with
    | nil => simp
    | cons a t ih => simp [ih]
  have hcntsne : (List.insertionSort keyLe (regionValues f roi).dedup).map
      (fun v => (((regionValues f roi).count v : ℚ))) ≠ [] := by
    intro hc
    have := List.map_eq_nil_iff.mp hc
    exact List.ne_nil_of_length_pos hkpos this
  -- the last accumulated count is the total number of samples
  have hlast : (accumList ((frequencyHistogram f roi).map
      (fun p => ((p.2 : ℚ))))).getLast?.getD 0 =
      (((regionValues f roi).length : ℕ) : ℚ) := by
    rw [hcnts]
    rw [show accumList ((List.insertionSort keyLe (regionValues f roi).dedup).map
      (fun v => (((regionValues f roi).count v : ℚ)))) = accumAux 0 _ from rfl]
    rw [accumAux_getLast? 0 _ hcntsne]
    rw [hsumcast, hsum]
    simp
  -- the j-th accumulated count counts the samples at most the j-th key
  have haccget : ∀ j, (hj : j < (List.insertionSort keyLe
      (regionValues f roi).dedup).length) →
      (accumList ((frequencyHistogram f roi).map (fun p => ((p.2 : ℚ)))))[j]? =
        some (((regionValues f roi).countP (fun x => decide (x ≤
          (List.insertionSort keyLe (regionValues f roi).dedup)[j])) : ℚ)) := by
    intro j hj
    rw [hcnts]
    rw [show accumList ((List.insertionSort keyLe (regionValues f roi).dedup).map
      (fun v => (((regionValues f roi).count v : ℚ)))) = accumAux 0 _ from rfl]
    rw [accumAux_getElem? 0 _ j (by simpa using hj), zero_add]
    rw [← List.map_take, hsumcast, countP_le_key_eq_sum (regionValues f roi) _
      hsort hmemiff j hj]
  -- length of the normalized list
  have hnormlen : (normalizedAccum (frequencyHistogram f roi)).length =
      (List.insertionSort keyLe (regionValues f roi).dedup).length := by
    show ((accumList _).map _).length = _
    rw [List.length_map, show accumList ((frequencyHistogram f roi).map
      (fun p => ((p.2 : ℚ)))) = accumAux 0 _ from rfl, accumAux_length,
      List.length_map, hhist, List.length_map]
  -- the normalized entries are the cumulative fractions at the keys
  have hnormget : ∀ j, (hj : j < (List.insertionSort keyLe
      (regionValues f roi).dedup).length) →
      (normalizedAccum (frequencyHistogram f roi))[j]? =
        some (cumulativeFractionLE f roi
          ((List.insertionSort keyLe (regionValues f roi).dedup)[j])) := by
    intro j hj
    show ((accumList _).map _)[j]? = _
    rw [List.getElem?_map, hlast, haccget j hj]
    rfl
  -- the last cumulative fraction is 1, so the threshold is reached
  have hjl : (List.insertionSort keyLe (regionValues f roi).dedup).length - 1 <
      (List.insertionSort keyLe (regionValues f roi).dedup).length :=
    Nat.sub_lt hkpos Nat.zero_lt_one
  have hcumlast : (regionValues f roi).countP (fun x => decide (x ≤
      (List.insertionSort keyLe (regionValues f roi).dedup)[
        (List.insertionSort keyLe (regionValues f roi).dedup).length - 1])) =
      (regionValues f roi).length := by
    apply List.countP_eq_length.mpr
    intro x hx
    simp only [decide_eq_true_eq]
    rcases List.mem_iff_getElem.mp ((hmemiff x).mpr hx) with ⟨k, hk, hkx⟩
    rcases Nat.lt_or_ge k ((List.insertionSort keyLe
        (regionValues f roi).dedup).length - 1) with hkl | hkl
    · exact hkx ▸ (hpw k _ hk hjl hkl).le
    · have : k = (List.insertionSort keyLe
          (regionValues f roi).dedup).length - 1 :=
        Nat.le_antisymm (Nat.le_sub_one_of_lt hk) hkl
      subst this
      exact hkx ▸ le_refl _
  have hjn : (List.insertionSort keyLe (regionValues f roi).dedup).length - 1 <
      (normalizedAccum (frequencyHistogram f roi)).length := by
    rw [hnormlen]
    exact hjl
  have hlastval : (normalizedAccum (frequencyHistogram f roi))[
      (List.insertionSort keyLe (regionValues f roi).dedup).length - 1]
      = 1 := by
    have h1 := hnormget _ hjl
    rw [List.getElem?_eq_getElem hjn] at h1
    have h2 := Option.some.inj h1
    rw [h2]
    rw [cumulativeFractionLE, hcumlast]
    exact div_self hTQ
  have hex : ∃ x ∈ normalizedAccum (frequencyHistogram f roi),
      (fun c => decide (th ≤ c)) x = true := by
    refine ⟨_, List.getElem_mem hjn, ?_⟩
    rw [hlastval]
    simpa using hth
  have hfound : (normalizedAccum (frequencyHistogram f roi)).findIdx
      (fun c => decide (th ≤ c)) <
      (normalizedAccum (frequencyHistogram f roi)).length :=
    List.findIdx_lt_length_of_exists hex
  have hidx : (normalizedAccum (frequencyHistogram f roi)).findIdx
      (fun c => decide (th ≤ c)) <
      (List.insertionSort keyLe (regionValues f roi).dedup).length := by
    rw [← hnormlen]
    exact hfound
  -- the selected value is the key at the found index
  have hval : LSTValueGTE f roi th =
      (List.insertionSort keyLe (regionValues f roi).dedup)[
        (normalizedAccum (frequencyHistogram f roi)).findIdx
          (fun c => decide (th ≤ c))] := by
    show (((List.map (fun v => (v, List.count v (regionValues f roi)))
        (List.insertionSort keyLe (regionValues f roi).dedup))[
          (normalizedAccum (frequencyHistogram f roi)).findIdx
            (fun c => decide (th ≤ c))]?).map Prod.fst).getD 0 = _
    rw [List.getElem?_map, List.getElem?_eq_getElem hidx]
    rfl
  refine ⟨?_, ?_, ?_⟩
  · rw [hval]
    exact (hmemiff _).mp (List.getElem_mem hidx)
  · have hp := List.findIdx_getElem (w := hfound)
    have h1 := hnormget _ hidx
    rw [List.getElem?_eq_getElem hfound] at h1
    have h2 := Option.some.inj h1
    rw [h2] at hp
    rw [hval]
    exact of_decide_eq_true hp
  · intro w hw hcum
    rcases List.mem_iff_getElem.mp ((hmemiff w).mpr hw) with ⟨k, hk, hkw⟩
    rw [hval]
    rcases Nat.lt_or_ge k ((normalizedAccum (frequencyHistogram f roi)).findIdx
        (fun c => decide (th ≤ c))) with hki | hki
    · exfalso
      have hkn : k < (normalizedAccum (frequencyHistogram f roi)).length := by
        rw [hnormlen]
        exact hk
      have hfalse := List.not_of_lt_findIdx hki
      have h1 := hnormget k hk
      rw [List.getElem?_eq_getElem hkn] at h1
      have h2 := Option.some.inj h1
      rw [h2] at hfalse
      rw [hkw] at hfalse
      exact (of_decide_eq_false hfalse) hcum
    · rcases Nat.eq_or_lt_of_le hki with heq2 | hlt2
      · subst heq2
        exact hkw ▸ le_refl _
      · exact hkw ▸ (hpw _ _ hidx hk hlt2).le

/-- C2 (amended): the classifier accumulates the histogram in the
dictionary's key order, lexicographic over the decimal string renderings of
the LST values.  When that key order agrees with the numeric order on the
field's values (e.g. Kelvin LST, whose integer parts all have three digits),
the keys are sorted ascending numerically and the 02-percent
(resp. 98-percent) selection is the smallest LST value at which the
normalized cumulative fraction reaches 0.02 (resp. 0.98). -/
theorem percentile_selection_correct (f : Image) (roi : Region)
    (hret : 1 < countDistinct f roi)
    (hagree : ∀ x ∈ regionValues f roi, ∀ y ∈ regionValues f roi,
      (keyLe x y ↔ x ≤ y)) :
    List.Sorted (· < ·) ((frequencyHistogram f roi).map Prod.fst) ∧
    (LSTValueGTE f roi 0.02 ∈ regionValues f roi ∧
      0.02 ≤ cumulativeFractionLE f roi (LSTValueGTE f roi 0.02) ∧
      ∀ w ∈ regionValues f roi,
        0.02 ≤ cumulativeFractionLE f roi w → LSTValueGTE f roi 0.02 ≤ w) ∧
    (LSTValueGTE f roi 0.98 ∈ regionValues f roi ∧
      0.98 ≤ cumulativeFractionLE f roi (LSTValueGTE f roi 0.98) ∧
      ∀ w ∈ regionValues f roi,
        0.98 ≤ cumulativeFractionLE f roi w → LSTValueGTE f roi 0.98 ≤ w) := by
  refine ⟨?_, LSTValueGTE_spec f roi hret hagree 0.02 (by norm_num),
    LSTValueGTE_spec f roi hret hagree 0.98 (by norm_num)⟩
  rw [frequencyHistogram_keys]
  exact keys_sorted_lt f roi hagree

/-- Witness for C2: the three-pixel LST field [1, 2, 2] has two distinct
values; its 02-percent selection is 1 and its 98-percent selection is 2. -/
theorem percentile_selection_correct_witness :
    List.Sorted (· < ·) ((frequencyHistogram lstW fullROI).map Prod.fst) ∧
    (LSTValueGTE lstW fullROI 0.02 ∈ regionValues lstW fullROI ∧
      0.02 ≤ cumulativeFractionLE lstW fullROI (LSTValueGTE lstW fullROI 0.02) ∧
      ∀ w ∈ regionValues lstW fullROI,
        0.02 ≤ cumulativeFractionLE lstW fullROI w →
          LSTValueGTE lstW fullROI 0.02 ≤ w) ∧
    (LSTValueGTE lstW fullROI 0.98 ∈ regionValues lstW fullROI ∧
      0.98 ≤ cumulativeFractionLE lstW fullROI (LSTValueGTE lstW fullROI 0.98) ∧
      ∀ w ∈ regionValues lstW fullROI,
        0.98 ≤ cumulativeFractionLE lstW fullROI w →
          LSTValueGTE lstW fullROI 0.98 ≤ w) :=
  percentile_selection_correct lstW fullROI (by with_unfolding_all decide)
    (by with_unfolding_all decide)

/-- Counterexample for C2 as stated: on the field [10.2, 9.5, 9.5] (two
distinct values, so retained) the dictionary key order puts "10.2" before
"9.5", the histogram keys descend numerically, the 02-percent selection is
10.2 although the smaller value 9.5 already has cumulative fraction 2/3 ≥
0.02, and the 98-percent selection 9.5 has numeric cumulative fraction 2/3 <
0.98. -/
theorem percentile_lexicographic_counterexample :
    1 < countDistinct lstLex fullROI ∧
    (frequencyHistogram lstLex fullROI).map Prod.fst = [10.2, 9.5] ∧
    LSTValueGTE lstLex fullROI 0.02 = 10.2 ∧
    (9.5 : ℚ) ∈ regionValues lstLex fullROI ∧
    0.02 ≤ cumulativeFractionLE lstLex fullROI 9.5 ∧
    (9.5 : ℚ) < 10.2 ∧
    LSTValueGTE lstLex fullROI 0.98 = 9.5 ∧
    cumulativeFractionLE lstLex fullROI 9.5 < 0.98 := by
  refine ⟨?_, ?_, ?_, ?_, ?_, ?_, ?_, ?_⟩ <;> with_unfolding_all decide
